/-
Verification of the watch-later store of the Movie-Hub repository.

The repository contains two families of localStorage-backed watch-later
stores:

* the "Aurora" variant (src/explore.js, src/movie.js, src/watch-later.js,
  and the two copies inside src/unnamed/part_000), whose records carry the
  fields id / media_type / title / poster_path / backdrop_path / overview /
  vote_average, whose `toggleWatchLater` matches records on the pair
  (id, media_type) and returns `idx === -1`, and whose `getWatchLater`
  wraps `JSON.parse` in try/catch;

* the "StreamVerse" variant (src/js/main.js), whose records carry the
  fields id / type / title / poster_path / overview / vote_average, whose
  `toggleWatchLater(id, itemData)` matches records on `id` alone and
  returns nothing, and whose `getWatchLaterList` does not catch parse
  errors.

The media kind enum {Movie, Series} of the data model is stored as the
strings "movie" and "tv" (spec section 6).  JavaScript numbers appearing
in records (catalog ids, rating values) are embedded as `Int` and `Rat`;
`NaN` never arises in the compared fields, so `===` on those fields is
plain equality.
-/

import Mathlib

namespace MovieHub

/-- A saved record of the Aurora-variant store, as built at every Aurora
call site of `toggleWatchLater` (explore.js `createCard`, movie.js
`buildHeader`, part_000 `createCard` and the tv-page `buildHeader`):
`{id, media_type, title, poster_path, backdrop_path, overview,
vote_average}`.  `poster_path`, `backdrop_path` and `vote_average` may be
absent/undefined at those call sites, hence `Option`. -/
structure Item where
  id : Int
  media_type : String
  title : String
  poster_path : Option String
  backdrop_path : Option String
  overview : String
  vote_average : Option Rat
deriving DecidableEq, Repr

/-- A saved record of the StreamVerse-variant store, as built in
src/js/main.js (hero slide / card `itemData`):
`{id, type, title, poster_path, overview, vote_average}`. -/
structure SVItem where
  id : Int
  type : String
  title : String
  poster_path : Option String
  overview : String
  vote_average : Option Rat
deriving DecidableEq, Repr

/-- JavaScript `Array.prototype.findIndex`: index of the first element
satisfying the callback, `-1` when none does. -/
def jsFindIndex {α : Type} (p : α → Bool) : List α → Int
  | [] => -1
  | x :: xs => if p x then 0 else
      let r := jsFindIndex p xs
      if r = -1 then -1 else r + 1

/-- The matching callback of the Aurora toggle:
`(i) => i.id === item.id && i.media_type === item.media_type`. -/
def auroraMatch (item : Item) (i : Item) : Bool :=
  i.id == item.id && i.media_type == item.media_type

/-- Aurora `toggleWatchLater` (src/explore.js lines 32-39, src/movie.js
lines 36-46, part_000 lines 265-276 and 590-597), acting on the decoded
list: `findIndex` on the pair (id, media_type); if found `splice(idx, 1)`,
else `push(item)`; the persisted list and the returned flag `idx === -1`. -/
def toggleWatchLater (list : List Item) (item : Item) : List Item × Bool :=
  let idx := jsFindIndex (auroraMatch item) list
  if idx > -1 then (list.eraseIdx idx.toNat, idx == -1)
  else (list ++ [item], idx == -1)

/-- The saved pre-check of src/movie.js line 198:
`getWatchLater().some((i) => i.id === movie.id && i.media_type === 'movie')`,
generalised over the compared id and media_type as at the other Aurora
pre-check sites. -/
def auroraSaved (list : List Item) (id : Int) (mtype : String) : Bool :=
  list.any (fun i => i.id == id && i.media_type == mtype)

/-- StreamVerse `toggleWatchLater(id, itemData)` (src/js/main.js lines
656-670): `findIndex(item => item.id === id)`; `splice` if found, else
`push(itemData)`.  The source function returns nothing, so only the
persisted list is produced. -/
def svToggleWatchLater (list : List SVItem) (id : Int) (itemData : SVItem) :
    List SVItem :=
  let itemIndex := jsFindIndex (fun item => item.id == id) list
  if itemIndex > -1 then list.eraseIdx itemIndex.toNat
  else list ++ [itemData]

/-- The remove-button handler of src/watch-later.js lines 74-83:
`findIndex((i) => i.id === item.id && i.media_type === item.media_type)`;
when found, `splice(idx, 1)` and persist, otherwise the stored list is
left as it is. -/
def removeAt (list : List Item) (id : Int) (mtype : String) : List Item :=
  let idx := jsFindIndex (fun i => i.id == id && i.media_type == mtype) list
  if idx > -1 then list.eraseIdx idx.toNat else list

/-- The matching key of an Aurora record: the pair (id, media_type). -/
def keyOf (i : Item) : Int × String := (i.id, i.media_type)

/-- The matching key of a StreamVerse record read as a pair: the spec's
(id, media kind) pair for that variant is (id, type). -/
def svKeyOf (i : SVItem) : Int × String := (i.id, i.type)

/-- Observation: some record with the given (id, media kind) pair is
present in a StreamVerse list. -/
def svKeyPresent (list : List SVItem) (id : Int) (t : String) : Bool :=
  list.any (fun i => i.id == id && i.type == t)

/-- StreamVerse `checkWatchLaterStatus` (src/js/main.js lines 644-647):
`list.some(item => item.id === id)` — membership by id alone. -/
def checkWatchLaterStatus (list : List SVItem) (id : Int) : Bool :=
  list.any (fun item => item.id == id)

/-- No two records of an Aurora list share the (id, media_type) pair. -/
def PairwiseKeyDistinct (l : List Item) : Prop :=
  l.Pairwise (fun a b => keyOf a ≠ keyOf b)

/-- No two records of a StreamVerse list share the (id, type) pair. -/
def SVPairwiseKeyDistinct (l : List SVItem) : Prop :=
  l.Pairwise (fun a b => svKeyOf a ≠ svKeyOf b)

/-- JavaScript truthiness of the optional numeric `vote_average` field:
`undefined`, `null` and `0` are falsy, every other number is truthy
(`NaN` does not arise for TMDB vote averages). -/
def jsTruthyNum : Option Rat → Bool
  | none => false
  | some q => !(q == 0)

/-- `Number.prototype.toFixed(1)` for the non-negative TMDB vote range:
the value rounded to one decimal digit, printed as `w.d`. -/
def toFixed1 (q : Rat) : String :=
  let n : Int := round (q * 10)
  toString (n / 10) ++ "." ++ toString (n % 10).natAbs

/-- StreamVerse `formatRating` (src/js/main.js lines 714-716):
`vote ? vote.toFixed(1) : 'N/A'`. -/
def formatRating (vote : Option Rat) : String :=
  if jsTruthyNum vote then toFixed1 (vote.getD 0) else "N/A"

/-- The rating span of src/watch-later.js `createCard` (lines 62-63):
`item.vote_average ? item.vote_average.toFixed(1) : '–'`. -/
def cardRatingText (item : Item) : String :=
  if jsTruthyNum item.vote_average then toFixed1 (item.vote_average.getD 0)
  else "–"

/-- The visual state of one save control that
`updateWatchLaterButtonUI` touches: the icon glyph, the icon font family,
the button's class list, and the accessible label. -/
structure BtnState where
  iconText : String
  iconFontFamily : String
  classes : List String
  ariaLabel : String
deriving DecidableEq, Repr

/-- DOM `classList.add`: appends the class unless it is already present. -/
def classListAdd (c : String) (l : List String) : List String :=
  if c ∈ l then l else l ++ [c]

/-- DOM `classList.remove`: drops every occurrence of the class. -/
def classListRemove (c : String) (l : List String) : List String :=
  l.filter (fun s => s != c)

/-- StreamVerse `updateWatchLaterButtonUI` (src/js/main.js lines
677-690): re-derives icon, font, `added` class and aria label of one
control from `checkWatchLaterStatus(id)`. -/
def updateWatchLaterButtonUI (storeList : List SVItem) (id : Int)
    (b : BtnState) : BtnState :=
  if checkWatchLaterStatus storeList id then
    { iconText := "bookmark", iconFontFamily := "Material Icons",
      classes := classListAdd "added" b.classes,
      ariaLabel := "Remove from Watch Later" }
  else
    { iconText := "bookmark_border",
      iconFontFamily := "Material Icons Outlined",
      classes := classListRemove "added" b.classes,
      ariaLabel := "Add to Watch Later" }

/-- One rendered `.btn-add-list` control: `parseInt(btn.dataset.id)`
(`none` models `NaN`, i.e. a missing or non-numeric data attribute) and
the current visual state. -/
structure PageButton where
  dataId : Option Int
  state : BtnState
deriving DecidableEq, Repr

/-- StreamVerse `updateAllWatchLaterButtons` (src/js/main.js lines
696-704): for every `.btn-add-list` control on the page, parse its id and,
when the id is truthy (`if (id)` skips `NaN` and `0`), refresh the
control's visual state from the store. -/
def updateAllWatchLaterButtons (storeList : List SVItem)
    (btns : List PageButton) : List PageButton :=
  btns.map fun b =>
    match b.dataId with
    | none => b
    | some id =>
        if id != 0 then
          { b with state := updateWatchLaterButtonUI storeList id b.state }
        else b

/-- A JSON value as produced by a successful `JSON.parse`, plus
`undefined` for JavaScript property access on a missing key.  Numbers are
embedded as rationals (`NaN`/`Infinity` are not valid JSON). -/
inductive JsValue where
  | undefined : JsValue
  | null : JsValue
  | bool (b : Bool) : JsValue
  | num (q : Rat) : JsValue
  | str (s : String) : JsValue
  | arr (elems : List JsValue) : JsValue
  | obj (fields : List (String × JsValue)) : JsValue

/-- The content of one localStorage cell as seen through
`getItem`/`JSON.parse`: the key is missing (`getItem` returns `null`),
holds the empty string (falsy but non-null), holds a non-empty string
that `JSON.parse` rejects, or holds a non-empty string that parses to a
JSON value. -/
inductive StorageVal where
  | absent : StorageVal
  | emptyStr : StorageVal
  | malformed (s : String) : StorageVal
  | jsonOf (v : JsValue) : StorageVal

/-- Aurora `getWatchLater` (src/watch-later.js lines 12-18, explore.js
lines 26-32, movie.js lines 27-34, part_000 lines 252-259 and 581-588):
`try { ... JSON.parse ... } catch { return [] }`.  A missing key or empty
string yields the parse of `'[]'` (explore/watch-later) or the literal
`[]` (movie/part_000) — the empty array either way; a string `JSON.parse`
rejects is caught and yields `[]`; a successfully parsed value is
returned as-is, whatever its shape. -/
def getWatchLater : StorageVal → JsValue
  | .absent => .arr []
  | .emptyStr => .arr []
  | .malformed _ => .arr []
  | .jsonOf v => v

/-- StreamVerse `getWatchLaterList` (src/js/main.js lines 628-631):
`const list = localStorage.getItem(KEY); return list ? JSON.parse(list) :
[];` — no try/catch, so a string `JSON.parse` rejects makes the exception
propagate to the caller (modelled as `Except.error`). -/
def getWatchLaterList : StorageVal → Except String JsValue
  | .absent => .ok (.arr [])
  | .emptyStr => .ok (.arr [])
  | .malformed s => .error s
  | .jsonOf v => .ok v

/-- The browsing origin's localStorage, one `StorageVal` per key. -/
def Storage : Type := String → StorageVal

/-- `localStorage.setItem(k, JSON.stringify(v))`: `JSON.stringify` of an
array always yields a non-empty string that parses back to the written
value, so the written cell holds that JSON value. -/
def setItem (st : Storage) (k : String) (v : JsValue) : Storage :=
  fun k2 => if k2 = k then StorageVal.jsonOf v else st k2

/-- The StreamVerse storage key (src/js/main.js line 622). -/
def streamVerseStorageKey : String := "streamVerseWatchLater"

/-- The Aurora storage key (src/explore.js line 13, src/watch-later.js
line 9, src/movie.js line 14, part_000 lines 226 and 568). -/
def auroraStorageKey : String := "watchLaterItems"

/-- JavaScript property access `v.name`: the field of an object when
present, `undefined` otherwise.  (`null.name`/`undefined.name` throw in
JavaScript; they never arise in the store's own data, and are mapped to
`undefined` here.) -/
def jsField : JsValue → String → JsValue
  | .obj fields, name =>
      match fields.lookup name with
      | some v => v
      | none => .undefined
  | _, _ => .undefined

/-- JavaScript `===` on the values the store compares: primitives compare
by value, values of different types are unequal.  Composite values
compare by reference in JavaScript; the store only ever compares the
primitive `id`/`media_type` fields, and distinct composites yield
`false`. -/
def jsStrictEq : JsValue → JsValue → Bool
  | .undefined, .undefined => true
  | .null, .null => true
  | .bool a, .bool b => a == b
  | .num a, .num b => a == b
  | .str a, .str b => a == b
  | _, _ => false

/-- StreamVerse `toggleWatchLater` at the storage level: read the cell at
`streamVerseStorageKey` through `getWatchLaterList` (a parse failure
propagates), run `findIndex`/`splice`/`push` on the parsed array
(`findIndex` on a non-array throws a `TypeError`), and `setItem` the
result back under the same key. -/
def svToggleWatchLaterStore (st : Storage) (id : JsValue)
    (itemData : JsValue) : Except String Storage :=
  match getWatchLaterList (st streamVerseStorageKey) with
  | .error e => .error e
  | .ok (.arr list) =>
      let itemIndex :=
        jsFindIndex (fun item => jsStrictEq (jsField item "id") id) list
      let newList :=
        if itemIndex > -1 then list.eraseIdx itemIndex.toNat
        else list ++ [itemData]
      .ok (setItem st streamVerseStorageKey (.arr newList))
  | .ok _ => .error "TypeError"

/-- Aurora `toggleWatchLater` at the storage level: read the cell at
`auroraStorageKey` through `getWatchLater`, `findIndex` on the pair
(id, media_type), `splice` or `push`, and `setItem` the result back under
the same key. -/
def auroraToggleWatchLaterStore (st : Storage) (item : JsValue) :
    Except String Storage :=
  match getWatchLater (st auroraStorageKey) with
  | .arr list =>
      let idx := jsFindIndex (fun i =>
        jsStrictEq (jsField i "id") (jsField item "id") &&
        jsStrictEq (jsField i "media_type") (jsField item "media_type")) list
      let newList :=
        if idx > -1 then list.eraseIdx idx.toNat else list ++ [item]
      .ok (setItem st auroraStorageKey (.arr newList))
  | _ => .error "TypeError"

/-- The list the Aurora pages observe: `getWatchLater` applied to the
Aurora cell. -/
def auroraObservedList (st : Storage) : JsValue :=
  getWatchLater (st auroraStorageKey)

/-- The list the StreamVerse pages observe: `getWatchLaterList` applied
to the StreamVerse cell. -/
def svObservedList (st : Storage) : Except String JsValue :=
  getWatchLaterList (st streamVerseStorageKey)

/-- The Inception record of the spec's scenario, an Aurora record with
id 27205 and media kind Movie. -/
def inception : Item :=
  { id := 27205, media_type := "movie", title := "Inception",
    poster_path := none, backdrop_path := none, overview := "",
    vote_average := none }

/-- A record with the same (id, media_type) key as `inception` but a
different payload (title, poster, overview, rating). -/
def inceptionAlt : Item :=
  { id := 27205, media_type := "movie", title := "INCEPTION (remaster)",
    poster_path := some "/alt.jpg", backdrop_path := none,
    overview := "a different overview", vote_average := some (44 / 5) }

/-- A series record with id 5 (Aurora shape). -/
def seriesFive : Item :=
  { id := 5, media_type := "tv", title := "Series Five",
    poster_path := none, backdrop_path := none, overview := "",
    vote_average := none }

/-- A movie record with id 5 (Aurora shape). -/
def movieFive : Item :=
  { id := 5, media_type := "movie", title := "Movie Five",
    poster_path := none, backdrop_path := none, overview := "",
    vote_average := none }

/-- A movie record sharing `movieFive`'s key but not its title. -/
def movieFiveOther : Item :=
  { id := 5, media_type := "movie", title := "Another Title",
    poster_path := none, backdrop_path := none, overview := "",
    vote_average := none }

/-- A series record with id 5 (StreamVerse shape). -/
def svSeriesFive : SVItem :=
  { id := 5, type := "tv", title := "Series Five", poster_path := none,
    overview := "", vote_average := none }

/-- A movie record with id 5 (StreamVerse shape). -/
def svMovieFive : SVItem :=
  { id := 5, type := "movie", title := "Movie Five", poster_path := none,
    overview := "", vote_average := none }

/-- The series record of the spec's removeAt scenario. -/
def seriesBB : Item :=
  { id := 1396, media_type := "tv", title := "Breaking Bad",
    poster_path := none, backdrop_path := none, overview := "",
    vote_average := none }

/-- The movie record of the spec's removeAt scenario. -/
def movieBB : Item :=
  { id := 1396, media_type := "movie", title := "El Camino",
    poster_path := none, backdrop_path := none, overview := "",
    vote_average := none }

/-- A fresh browsing origin: every localStorage key is missing. -/
def demoStorage : Storage := fun _ => StorageVal.absent

/-- A StreamVerse item record at the JSON level, as pushed by
toggleWatchLater in src/js/main.js. -/
def svDemoItemJs : JsValue :=
  .obj [("id", .num 5), ("type", .str "movie"), ("title", .str "Demo")]

section FindIndexLemmas

variable {α : Type} {p : α → Bool}

theorem jsFindIndex_eq_neg_one_or_nonneg (l : List α) :
    jsFindIndex p l = -1 ∨ 0 ≤ jsFindIndex p l := by
  induction l with
  | nil => exact Or.inl rfl
  | cons x xs ih =>
    by_cases hx : p x
    · right; simp [jsFindIndex, hx]
    · rcases ih with h | h
      · left; simp [jsFindIndex, hx, h]
      · by_cases he : jsFindIndex p xs = -1
        · left; simp [jsFindIndex, hx, he]
        · right; simp only [jsFindIndex, hx, if_false, he, if_neg he]
          omega

theorem jsFindIndex_cons (p : α → Bool) (x : α) (xs : List α) :
    jsFindIndex p (x :: xs) =
      if p x then 0
      else if jsFindIndex p xs = -1 then -1 else jsFindIndex p xs + 1 :=
  rfl

theorem jsFindIndex_eq_neg_one_iff (l : List α) :
    jsFindIndex p l = -1 ↔ ∀ x ∈ l, p x = false := by
  induction l with
  | nil => simp [jsFindIndex]
  | cons x xs ih =>
    rw [jsFindIndex_cons, List.forall_mem_cons]
    by_cases hx : p x
    · simp [hx]
    · by_cases he : jsFindIndex p xs = -1
      · have hx' : p x = false := by simpa using hx
        have hall := ih.mp he
        simp only [hx, if_false, he, if_pos rfl, hx', true_and]
        exact iff_of_true rfl hall
      · have hne : ¬ (jsFindIndex p xs + 1 = -1) := by
          rcases jsFindIndex_eq_neg_one_or_nonneg (p := p) xs with h | h
          · exact absurd h he
          · omega
        simp only [hx, if_false, if_neg he]
        constructor
        · intro hc; exact absurd hc hne
        · intro hall
          exact absurd (ih.mpr hall.2) he

theorem jsFindIndex_eraseIdx_eq_eraseP {l : List α}
    (h : jsFindIndex p l ≠ -1) :
    l.eraseIdx (jsFindIndex p l).toNat = l.eraseP p := by
  induction l with
  | nil => exact absurd rfl h
  | cons x xs ih =>
    by_cases hx : p x
    · simp [jsFindIndex, hx, List.eraseP_cons_of_pos hx]
    · by_cases he : jsFindIndex p xs = -1
      · exact absurd (by simp [jsFindIndex, hx, he]) h
      · have hnn : 0 ≤ jsFindIndex p xs := by
          rcases jsFindIndex_eq_neg_one_or_nonneg (p := p) xs with h' | h'
          · exact absurd h' he
          · exact h'
        have hval : jsFindIndex p (x :: xs) = jsFindIndex p xs + 1 := by
          simp [jsFindIndex, hx, he]
        have htn : (jsFindIndex p xs + 1).toNat = (jsFindIndex p xs).toNat + 1 := by
          omega
        rw [hval, htn, List.eraseIdx_cons_succ, List.eraseP_cons_of_neg hx,
          ih he]

theorem jsFindIndex_gt_neg_one_iff (l : List α) :
    (jsFindIndex p l > -1) ↔ l.any p = true := by
  rcases jsFindIndex_eq_neg_one_or_nonneg (p := p) l with h | h
  · rw [jsFindIndex_eq_neg_one_iff] at h
    constructor
    · intro hgt
      exfalso
      rw [← jsFindIndex_eq_neg_one_iff (p := p) l] at h
      omega
    · intro hany
      rw [List.any_eq_true] at hany
      obtain ⟨y, hy, hpy⟩ := hany
      exact absurd (h y hy) (by simp [hpy])
  · constructor
    · intro _
      by_contra hany
      have : ∀ x ∈ l, p x = false := by
        intro y hy
        by_contra hpy
        exact hany (List.any_eq_true.mpr ⟨y, hy, by simpa using hpy⟩)
      rw [← jsFindIndex_eq_neg_one_iff (p := p) l] at this
      omega
    · intro _; omega

end FindIndexLemmas

section ToggleBridge

theorem jsFindIndex_spec_pos {α : Type} {p : α → Bool} {l : List α}
    (h : l.any p = true) :
    jsFindIndex p l > -1 ∧
    l.eraseIdx (jsFindIndex p l).toNat = l.eraseP p ∧
    (jsFindIndex p l == -1) = false := by
  have hgt : jsFindIndex p l > -1 := (jsFindIndex_gt_neg_one_iff l).mpr h
  have hne : jsFindIndex p l ≠ -1 := by omega
  refine ⟨hgt, jsFindIndex_eraseIdx_eq_eraseP hne, ?_⟩
  simpa using hne

theorem jsFindIndex_spec_neg {α : Type} {p : α → Bool} {l : List α}
    (h : l.any p = false) :
    jsFindIndex p l = -1 := by
  rw [jsFindIndex_eq_neg_one_iff]
  intro y hy
  by_contra hpy
  have : l.any p = true := List.any_eq_true.mpr ⟨y, hy, by simpa using hpy⟩
  rw [this] at h
  exact absurd h (by simp)

theorem toggleWatchLater_eq (l : List Item) (x : Item) :
    toggleWatchLater l x =
      if l.any (auroraMatch x) then (l.eraseP (auroraMatch x), false)
      else (l ++ [x], true) := by
  unfold toggleWatchLater
  by_cases h : l.any (auroraMatch x)
  · obtain ⟨hgt, herase, hbeq⟩ := jsFindIndex_spec_pos h
    rw [if_pos h, if_pos hgt, herase, hbeq]
  · have hh : l.any (auroraMatch x) = false := by simpa using h
    have hidx := jsFindIndex_spec_neg hh
    rw [if_neg h, hidx]
    norm_num

theorem svToggleWatchLater_eq (l : List SVItem) (id : Int) (x : SVItem) :
    svToggleWatchLater l id x =
      if l.any (fun i => i.id == id) then l.eraseP (fun i => i.id == id)
      else l ++ [x] := by
  unfold svToggleWatchLater
  by_cases h : l.any (fun i => i.id == id)
  · obtain ⟨hgt, herase, _⟩ := jsFindIndex_spec_pos h
    rw [if_pos h, if_pos hgt, herase]
  · have hh : l.any (fun i => i.id == id) = false := by simpa using h
    have hidx := jsFindIndex_spec_neg hh
    rw [if_neg h, hidx]
    norm_num

theorem removeAt_eq (l : List Item) (id : Int) (t : String) :
    removeAt l id t =
      if l.any (fun i => i.id == id && i.media_type == t)
      then l.eraseP (fun i => i.id == id && i.media_type == t)
      else l := by
  unfold removeAt
  by_cases h : l.any (fun i => i.id == id && i.media_type == t)
  · obtain ⟨hgt, herase, _⟩ := jsFindIndex_spec_pos h
    rw [if_pos h, if_pos hgt, herase]
  · have hh : l.any (fun i => i.id == id && i.media_type == t) = false := by
      simpa using h
    have hidx := jsFindIndex_spec_neg hh
    rw [if_neg h, hidx]
    norm_num

theorem auroraMatch_self (x : Item) : auroraMatch x x = true := by
  simp [auroraMatch]

theorem toggle_snd (l : List Item) (x : Item) :
    (toggleWatchLater l x).2 = !(l.any (auroraMatch x)) := by
  rw [toggleWatchLater_eq]
  by_cases h : l.any (auroraMatch x) <;> simp [h]

theorem auroraSaved_eq_any_match (l : List Item) (x : Item) :
    auroraSaved l x.id x.media_type = l.any (auroraMatch x) := rfl

end ToggleBridge

section FrameLemmas

theorem auroraSaved_append (l1 l2 : List Item) (id : Int) (t : String) :
    auroraSaved (l1 ++ l2) id t = (auroraSaved l1 id t || auroraSaved l2 id t) := by
  simp [auroraSaved, List.any_append]

theorem auroraSaved_toggle_frame (l : List Item) (x : Item) (id : Int)
    (t : String) (h : ¬(id = x.id ∧ t = x.media_type)) :
    auroraSaved (toggleWatchLater l x).1 id t = auroraSaved l id t := by
  rw [toggleWatchLater_eq]
  by_cases hany : l.any (auroraMatch x)
  · rw [if_pos hany]
    obtain ⟨y, hy, hpy⟩ := List.any_eq_true.mp hany
    obtain ⟨a, l1, l2, _, hpa, hl, herase⟩ := List.exists_of_eraseP hy hpy
    dsimp only
    rw [herase, hl]
    have hkey : a.id = x.id ∧ a.media_type = x.media_type := by
      simpa [auroraMatch] using hpa
    have hfalse : (a.id == id && a.media_type == t) = false := by
      by_contra hc
      have hc' : a.id = id ∧ a.media_type = t := by
        simpa using Bool.of_not_eq_false hc
      exact h ⟨hc'.1 ▸ hkey.1.symm ▸ rfl, hc'.2 ▸ hkey.2.symm ▸ rfl⟩
    simp [auroraSaved, List.any_append, List.any_cons, hfalse]
  · rw [if_neg hany]
    dsimp only
    have hfalse : (x.id == id && x.media_type == t) = false := by
      by_contra hc
      have hc' : x.id = id ∧ x.media_type = t := by
        simpa using Bool.of_not_eq_false hc
      exact h ⟨hc'.1.symm, hc'.2.symm⟩
    simp [auroraSaved, List.any_append, List.any_cons, hfalse]

end FrameLemmas

/-- Claim C1, counterexample.  The claim quantifies over both toggle
implementations; the StreamVerse one (src/js/main.js lines 656-670)
matches records on id alone, so from the stored list holding the series
record with id 5, toggling the movie item with id 5 removes the series
record: the presence of the pair (5, Series) is changed by a toggle of
(5, Movie). -/
theorem sv_toggle_not_key_independent :
    svKeyPresent [svSeriesFive] 5 "tv" = true ∧
    svKeyPresent (svToggleWatchLater [svSeriesFive] 5 svMovieFive) 5 "tv"
      = false := by
  constructor <;> rfl

/-- Claim C1, amended.  The Aurora-variant toggle (src/explore.js lines
32-39, src/movie.js lines 36-46) matches on the pair (id, media_type) and
leaves the presence of every record with a different (id, media kind)
pair unchanged — in particular toggling (5, Movie) there does not affect
the presence of (5, Series); the StreamVerse-variant toggle
(src/js/main.js) matches on id alone and has this frame property only for
records with a different id. -/
theorem aurora_toggle_key_independent (l : List Item) (x : Item) (id : Int)
    (t : String) (h : ¬(id = x.id ∧ t = x.media_type)) :
    auroraSaved (toggleWatchLater l x).1 id t = auroraSaved l id t :=
  auroraSaved_toggle_frame l x id t h

/-- Witness for the amended C1: toggling the movie with id 5 on a list
holding only the series with id 5 leaves the presence of (5, tv)
unchanged in the Aurora store. -/
theorem aurora_toggle_key_independent_witness :
    ¬((5 : Int) = movieFive.id ∧ "tv" = movieFive.media_type) ∧
    auroraSaved (toggleWatchLater [seriesFive] movieFive).1 5 "tv" =
      auroraSaved [seriesFive] 5 "tv" :=
  ⟨by decide, aurora_toggle_key_independent [seriesFive] movieFive 5 "tv"
    (by decide)⟩

/-- Claim C3, confirmed for the Aurora toggle, the variant that returns
an added flag: the flag is true exactly when no record with the item's
(id, media_type) was present (the item is appended), false exactly when
one was present; and the spec's Inception scenario runs as stated from
the empty store. -/
theorem toggle_returns_added_flag :
    (∀ (l : List Item) (x : Item),
        (toggleWatchLater l x).2 = !(auroraSaved l x.id x.media_type)) ∧
    (toggleWatchLater [] inception).2 = true ∧
    auroraSaved (toggleWatchLater [] inception).1 27205 "movie" = true ∧
    (toggleWatchLater (toggleWatchLater [] inception).1 inception).2
      = false ∧
    auroraSaved
      (toggleWatchLater (toggleWatchLater [] inception).1 inception).1
      27205 "movie" = false := by
  refine ⟨fun l x => ?_, by decide, by decide, by decide, by decide⟩
  rw [auroraSaved_eq_any_match, toggle_snd]

section DoubleToggle

theorem toggle_fst_of_not_found {l : List Item} {x : Item}
    (h : l.any (auroraMatch x) = false) :
    (toggleWatchLater l x).1 = l ++ [x] := by
  rw [toggleWatchLater_eq, if_neg (by simp [h])]

theorem toggle_fst_of_found {l : List Item} {x : Item}
    (h : l.any (auroraMatch x) = true) :
    (toggleWatchLater l x).1 = l.eraseP (auroraMatch x) := by
  rw [toggleWatchLater_eq, if_pos h]

/-- Claim C4, counterexample.  The list holding a record that shares
x's (id, media_type) key but not its title does not get its members back
after two toggles of x: the stored record is replaced by x itself, so the
original record is gone. -/
theorem toggle_toggle_not_involutive_in_general :
    movieFiveOther ∈ [movieFiveOther] ∧
    movieFiveOther ∉
      (toggleWatchLater (toggleWatchLater [movieFiveOther] movieFive).1
        movieFive).1 := by
  constructor
  · decide
  · decide

/-- Claim C4, amended.  For a list in which every record matching x's
(id, media_type) key is x itself and x occurs at most once — in
particular any list obeying the uniqueness invariant whose record under
x's key, if any, is x — two toggles of x restore the original members
(the result is a permutation of the original list) and every item other
than x keeps its relative order. -/
theorem toggle_toggle_restores (l : List Item) (x : Item)
    (h1 : ∀ y ∈ l, auroraMatch x y = true → y = x)
    (h2 : l.count x ≤ 1) :
    ((toggleWatchLater (toggleWatchLater l x).1 x).1).Perm l ∧
    ((toggleWatchLater (toggleWatchLater l x).1 x).1).filter
        (fun y => y != x) = l.filter (fun y => y != x) := by
  by_cases hany : l.any (auroraMatch x)
  · obtain ⟨y, hy, hpy⟩ := List.any_eq_true.mp hany
    have hyx := h1 y hy hpy
    subst hyx
    obtain ⟨a, l1, l2, hl1, hpa, hl, herase⟩ :=
      List.exists_of_eraseP hy (auroraMatch_self y)
    have hax : a = y := h1 a (by rw [hl]; simp) hpa
    subst hax
    have hxl2 : a ∉ l2 := by
      intro hx2
      have hc2 : 0 < l2.count a := List.count_pos_iff.mpr hx2
      have : 2 ≤ l.count a := by
        rw [hl, List.count_append, List.count_cons_self]
        omega
      omega
    have hnol2 : ∀ b ∈ l2, ¬ auroraMatch a b = true := by
      intro b hb hpb
      have := h1 b (by rw [hl]; simp [hb]) hpb
      exact hxl2 (this ▸ hb)
    have hany2 : (l1 ++ l2).any (auroraMatch a) = false := by
      rw [List.any_eq_false]
      intro b hb
      rcases List.mem_append.mp hb with hb1 | hb2
      · exact hl1 b hb1
      · exact hnol2 b hb2
    have hfst : (toggleWatchLater l a).1 = l1 ++ l2 := by
      rw [toggle_fst_of_found hany, herase]
    have h2fst : (toggleWatchLater (l1 ++ l2) a).1 = (l1 ++ l2) ++ [a] :=
      toggle_fst_of_not_found hany2
    rw [hfst, h2fst]
    constructor
    · rw [List.append_assoc, hl]
      exact List.Perm.append_left l1 List.perm_append_comm
    · rw [hl]
      simp [List.filter_append, List.filter_cons, bne_self_eq_false]
  · have hany' : l.any (auroraMatch x) = false := by simpa using hany
    have hfst : (toggleWatchLater l x).1 = l ++ [x] :=
      toggle_fst_of_not_found hany'
    have hany2 : (l ++ [x]).any (auroraMatch x) = true := by
      simp [List.any_append, auroraMatch_self]
    have h2fst : (toggleWatchLater (l ++ [x]) x).1 = l := by
      rw [toggle_fst_of_found hany2,
        List.eraseP_append_right _ (List.any_eq_false.mp hany'),
        List.eraseP_cons_of_pos (auroraMatch_self x)]
      simp
    rw [hfst, h2fst]
    exact ⟨List.Perm.refl l, rfl⟩

/-- Witness for the amended C4: two toggles of the Inception record on
the singleton list holding it restore the members of that list. -/
theorem toggle_toggle_restores_witness :
    ([inception].count inception ≤ 1) ∧
    ((toggleWatchLater (toggleWatchLater [inception] inception).1
        inception).1).Perm [inception] :=
  ⟨by decide,
    (toggle_toggle_restores [inception] inception
      (by decide) (by decide)).1⟩

end DoubleToggle

section UniqueKeys

theorem toggle_preserves_pairwise (l : List Item) (x : Item)
    (h : PairwiseKeyDistinct l) :
    PairwiseKeyDistinct (toggleWatchLater l x).1 := by
  by_cases hany : l.any (auroraMatch x)
  · rw [toggle_fst_of_found hany]
    exact List.Pairwise.sublist (List.eraseP_sublist l) h
  · have hany' : l.any (auroraMatch x) = false := by simpa using hany
    rw [toggle_fst_of_not_found hany']
    rw [PairwiseKeyDistinct, List.pairwise_append]
    refine ⟨h, List.pairwise_singleton _ _, ?_⟩
    intro a ha b hb
    have hb' : b = x := by simpa using hb
    subst hb'
    have hmatch := List.any_eq_false.mp hany' a ha
    intro hkey
    apply hmatch
    have h1 : a.id = b.id := congrArg Prod.fst hkey
    have h2 : a.media_type = b.media_type := congrArg Prod.snd hkey
    simp [auroraMatch, h1, h2]

theorem sv_toggle_preserves_pairwise (l : List SVItem) (x : SVItem)
    (h : SVPairwiseKeyDistinct l) :
    SVPairwiseKeyDistinct (svToggleWatchLater l x.id x) := by
  rw [svToggleWatchLater_eq]
  by_cases hany : l.any (fun i => i.id == x.id)
  · rw [if_pos hany]
    exact List.Pairwise.sublist (List.eraseP_sublist l) h
  · rw [if_neg hany]
    have hany' : l.any (fun i => i.id == x.id) = false := by simpa using hany
    rw [SVPairwiseKeyDistinct, List.pairwise_append]
    refine ⟨h, List.pairwise_singleton _ _, ?_⟩
    intro a ha b hb
    have hb' : b = x := by simpa using hb
    subst hb'
    have hmatch := List.any_eq_false.mp hany' a ha
    intro hkey
    apply hmatch
    have h1 : a.id = b.id := congrArg Prod.fst hkey
    simp [h1]

/-- Claim C5, confirmed.  Starting from any list with pairwise-distinct
(id, media kind) pairs — in particular the empty list — any finite
sequence of toggle calls leaves the pairs pairwise distinct, both for the
Aurora toggle and for the StreamVerse toggle under its call pattern
toggleWatchLater(itemData.id, itemData). -/
theorem toggle_sequence_keeps_keys_unique :
    (∀ (ops : List Item) (init : List Item), PairwiseKeyDistinct init →
      PairwiseKeyDistinct
        (ops.foldl (fun l x => (toggleWatchLater l x).1) init)) ∧
    (∀ (ops : List SVItem) (init : List SVItem),
      SVPairwiseKeyDistinct init →
      SVPairwiseKeyDistinct
        (ops.foldl (fun l x => svToggleWatchLater l x.id x) init)) := by
  constructor
  · intro ops
    induction ops with
    | nil => intro init h; exact h
    | cons x xs ih =>
        intro init h
        exact ih _ (toggle_preserves_pairwise init x h)
  · intro ops
    induction ops with
    | nil => intro init h; exact h
    | cons x xs ih =>
        intro init h
        exact ih _ (sv_toggle_preserves_pairwise init x h)

/-- Witness for C5: from the empty store, the toggle sequence adding
Inception and then both id-5 records keeps the (id, media kind) pairs
pairwise distinct. -/
theorem toggle_sequence_keeps_keys_unique_witness :
    PairwiseKeyDistinct ([] : List Item) ∧
    PairwiseKeyDistinct
      ([inception, seriesFive, movieFive].foldl
        (fun l x => (toggleWatchLater l x).1) []) :=
  ⟨List.Pairwise.nil,
    toggle_sequence_keeps_keys_unique.1 [inception, seriesFive, movieFive]
      [] List.Pairwise.nil⟩

end UniqueKeys

section RemoveAt

/-- Claim C6, confirmed.  The remove handler of src/watch-later.js
removes exactly the first record matching both id and media kind and
keeps everything else; in the spec's scenario, a store holding the
(1396, Series) and (1396, Movie) records is left with exactly the movie
record by removeAt(1396, Series) (Series is stored as the string tv). -/
theorem removeAt_removes_first_pair_match :
    (∀ (l1 l2 : List Item) (r : Item) (id : Int) (t : String),
        (∀ b ∈ l1, (b.id == id && b.media_type == t) = false) →
        (r.id == id && r.media_type == t) = true →
        removeAt (l1 ++ r :: l2) id t = l1 ++ l2) ∧
    (∀ s m : Item, s.id = 1396 → s.media_type = "tv" →
        m.id = 1396 → m.media_type = "movie" →
        removeAt [s, m] 1396 "tv" = [m]) := by
  have hgen : ∀ (l1 l2 : List Item) (r : Item) (id : Int) (t : String),
      (∀ b ∈ l1, (b.id == id && b.media_type == t) = false) →
      (r.id == id && r.media_type == t) = true →
      removeAt (l1 ++ r :: l2) id t = l1 ++ l2 := by
    intro l1 l2 r id t hl1 hr
    have hany : (l1 ++ r :: l2).any
        (fun i => i.id == id && i.media_type == t) = true :=
      List.any_eq_true.mpr ⟨r, by simp, hr⟩
    rw [removeAt_eq, if_pos hany,
      List.eraseP_append_right _ (fun b hb => by simp [hl1 b hb])]
    congr 1
    exact List.eraseP_cons_of_pos hr
  refine ⟨hgen, ?_⟩
  intro s m hs1 hs2 _ _
  have := hgen [] [m] s 1396 "tv" (by intro b hb; simp at hb)
    (by simp [hs1, hs2])
  simpa using this

/-- Witness for C6: the spec scenario on concrete records — removing
(1396, tv) from the two-record store leaves exactly the movie record. -/
theorem removeAt_removes_first_pair_match_witness :
    seriesBB.id = 1396 ∧ seriesBB.media_type = "tv" ∧
    movieBB.id = 1396 ∧ movieBB.media_type = "movie" ∧
    removeAt [seriesBB, movieBB] 1396 "tv" = [movieBB] :=
  ⟨rfl, rfl, rfl, rfl,
    removeAt_removes_first_pair_match.2 seriesBB movieBB rfl rfl rfl rfl⟩

end RemoveAt

section Rating

/-- Claim C7, confirmed.  A rating of exactly 0 and an absent rating are
rendered identically: for every item the watch-later card's rating text
is the same placeholder in both cases, and the StreamVerse formatRating
renders 0 and a missing vote as the same placeholder. -/
theorem rating_zero_renders_as_absent :
    (∀ it : Item,
        cardRatingText { it with vote_average := some 0 } =
          cardRatingText { it with vote_average := none } ∧
        cardRatingText { it with vote_average := none } = "–") ∧
    formatRating (some 0) = formatRating none ∧
    formatRating none = "N/A" := by
  refine ⟨fun it => ⟨?_, rfl⟩, ?_, rfl⟩
  · simp [cardRatingText, jsTruthyNum]
  · simp [formatRating, jsTruthyNum]

end Rating

section RefreshIdempotent

theorem classListAdd_idem (c : String) (l : List String) :
    classListAdd c (classListAdd c l) = classListAdd c l := by
  unfold classListAdd
  by_cases h : c ∈ l
  · simp [h]
  · simp [h]

theorem classListRemove_idem (c : String) (l : List String) :
    classListRemove c (classListRemove c l) = classListRemove c l := by
  unfold classListRemove
  rw [List.filter_filter]
  simp

theorem updateWatchLaterButtonUI_idem (storeList : List SVItem) (id : Int)
    (b : BtnState) :
    updateWatchLaterButtonUI storeList id
      (updateWatchLaterButtonUI storeList id b) =
    updateWatchLaterButtonUI storeList id b := by
  unfold updateWatchLaterButtonUI
  by_cases h : checkWatchLaterStatus storeList id
  · simp [h, classListAdd_idem]
  · simp [h, classListRemove_idem]

/-- Claim C8, confirmed.  With the store state fixed, refreshing all save
controls twice leaves every control in exactly the visual state (icon,
font, styling class, accessible label) produced by the first run. -/
theorem refresh_all_controls_idempotent (storeList : List SVItem)
    (btns : List PageButton) :
    updateAllWatchLaterButtons storeList
        (updateAllWatchLaterButtons storeList btns) =
      updateAllWatchLaterButtons storeList btns := by
  unfold updateAllWatchLaterButtons
  rw [List.map_map]
  apply List.map_congr_left
  intro b _
  cases hb : b.dataId with
  | none => simp [Function.comp_apply, hb]
  | some id =>
      by_cases hid : id = 0
      · simp [Function.comp_apply, hb, hid]
      · simp [Function.comp_apply, hb, hid, updateWatchLaterButtonUI_idem]

end RefreshIdempotent

section KeyedNoninterference

theorem any_map_general {α β : Type} (f : α → β) (p : β → Bool)
    (l : List α) : (l.map f).any p = l.any (fun a => p (f a)) := by
  induction l with
  | nil => rfl
  | cons x xs ih => simp [ih]

theorem auroraSaved_keys (l : List Item) (id : Int) (t : String) :
    auroraSaved l id t =
      (l.map keyOf).any (fun k => k.1 == id && k.2 == t) :=
  (any_map_general keyOf (fun k => k.1 == id && k.2 == t) l).symm

/-- Claim C10, confirmed.  The added/removed flag of the Aurora toggle
and the saved pre-check depend only on the (id, media_type) pairs: two
stored lists that agree on all keys, and two items with equal keys,
produce the same boolean results whatever the titles, poster or backdrop
paths, overviews and vote averages are. -/
theorem toggle_depends_only_on_keys (l1 l2 : List Item) (x1 x2 : Item)
    (hl : l1.map keyOf = l2.map keyOf) (hx : keyOf x1 = keyOf x2) :
    (toggleWatchLater l1 x1).2 = (toggleWatchLater l2 x2).2 ∧
    (∀ (id : Int) (t : String), auroraSaved l1 id t = auroraSaved l2 id t)
    := by
  have hid : x1.id = x2.id := congrArg Prod.fst hx
  have hmt : x1.media_type = x2.media_type := congrArg Prod.snd hx
  have hsaved : ∀ (id : Int) (t : String),
      auroraSaved l1 id t = auroraSaved l2 id t := by
    intro id t
    rw [auroraSaved_keys, auroraSaved_keys, hl]
  refine ⟨?_, hsaved⟩
  rw [toggle_snd, toggle_snd, ← auroraSaved_eq_any_match,
    ← auroraSaved_eq_any_match, hid, hmt, hsaved x2.id x2.media_type]

/-- Witness for C10: a list holding the plain Inception record and one
holding the re-titled, re-rated variant with the same key give the same
toggle flag. -/
theorem toggle_depends_only_on_keys_witness :
    [inception].map keyOf = [inceptionAlt].map keyOf ∧
    (toggleWatchLater [inception] inception).2 =
      (toggleWatchLater [inceptionAlt] inception).2 :=
  ⟨by decide,
    (toggle_depends_only_on_keys [inception] [inceptionAlt] inception
      inception (by decide) rfl).1⟩

end KeyedNoninterference

section LoadErrorHandling

/-- Claim C2, counterexample.  The StreamVerse getWatchLaterList
(src/js/main.js lines 628-631) has no try/catch, so a stored value that
is not valid JSON makes the parse error propagate to the caller instead
of yielding the empty sequence; and even the Aurora getWatchLater returns
a successfully parsed value of the wrong shape (here the number 5) as-is
rather than an empty sequence. -/
theorem sv_load_propagates_parse_error :
    getWatchLaterList (StorageVal.malformed "not json") =
      Except.error "not json" ∧
    getWatchLaterList (StorageVal.malformed "not json") ≠
      Except.ok (JsValue.arr []) ∧
    getWatchLater (StorageVal.jsonOf (JsValue.num 5)) = JsValue.num 5 ∧
    getWatchLater (StorageVal.jsonOf (JsValue.num 5)) ≠ JsValue.arr [] := by
  refine ⟨rfl, ?_, rfl, ?_⟩
  · intro h
    simp [getWatchLaterList] at h
  · intro h
    simp [getWatchLater] at h

/-- Claim C2, amended.  The Aurora-variant load (getWatchLater) returns
the empty list for a missing stored value and for any string JSON.parse
rejects, never propagating an error; the StreamVerse getWatchLaterList
returns the empty list only for a missing or empty stored value and
propagates the parse error on invalid JSON; neither variant validates the
list-of-records shape — any successfully parsed value is returned
as-is. -/
theorem load_error_handling :
    (∀ s : String, getWatchLater (StorageVal.malformed s) = JsValue.arr [])
    ∧ getWatchLater StorageVal.absent = JsValue.arr [] ∧
    getWatchLater StorageVal.emptyStr = JsValue.arr [] ∧
    (∀ v : JsValue, getWatchLater (StorageVal.jsonOf v) = v) ∧
    (∀ s : String,
      getWatchLaterList (StorageVal.malformed s) = Except.error s) ∧
    getWatchLaterList StorageVal.absent = Except.ok (JsValue.arr []) ∧
    (∀ v : JsValue,
      getWatchLaterList (StorageVal.jsonOf v) = Except.ok v) :=
  ⟨fun _ => rfl, rfl, rfl, fun _ => rfl, fun _ => rfl, rfl, fun _ => rfl⟩

end LoadErrorHandling

section StorageIsolation

theorem setItem_other (st : Storage) (k k2 : String) (v : JsValue)
    (h : k2 ≠ k) : setItem st k v k2 = st k2 := by
  simp [setItem, h]

/-- Claim C9, confirmed.  The StreamVerse store reads and writes only the
key streamVerseWatchLater and the Aurora store only the key
watchLaterItems; the keys differ, and every successful toggle of one
variant leaves the other variant's cell — and hence the list the other
variant observes — unchanged. -/
theorem store_variants_isolated :
    streamVerseStorageKey ≠ auroraStorageKey ∧
    (∀ (st : Storage) (id itemData : JsValue) (st2 : Storage),
        svToggleWatchLaterStore st id itemData = Except.ok st2 →
        st2 auroraStorageKey = st auroraStorageKey ∧
        auroraObservedList st2 = auroraObservedList st) ∧
    (∀ (st : Storage) (item : JsValue) (st2 : Storage),
        auroraToggleWatchLaterStore st item = Except.ok st2 →
        st2 streamVerseStorageKey = st streamVerseStorageKey ∧
        svObservedList st2 = svObservedList st) := by
  have hne1 : ¬ (auroraStorageKey = streamVerseStorageKey) := by decide
  have hne2 : ¬ (streamVerseStorageKey = auroraStorageKey) := by decide
  refine ⟨by decide, ?_, ?_⟩
  · intro st id itemData st2 h
    unfold svToggleWatchLaterStore at h
    cases hv : getWatchLaterList (st streamVerseStorageKey) with
    | error e => rw [hv] at h; simp at h
    | ok v =>
        rw [hv] at h
        cases v with
        | arr list =>
            simp only [Except.ok.injEq] at h
            subst h
            refine ⟨setItem_other st streamVerseStorageKey
                auroraStorageKey _ hne1,
              congrArg getWatchLater (setItem_other st streamVerseStorageKey
                auroraStorageKey _ hne1)⟩
        | undefined => simp at h
        | null => simp at h
        | bool b => simp at h
        | num q => simp at h
        | str s => simp at h
        | obj fields => simp at h
  · intro st item st2 h
    unfold auroraToggleWatchLaterStore at h
    cases hv : getWatchLater (st auroraStorageKey) with
    | arr list =>
        rw [hv] at h
        simp only [Except.ok.injEq] at h
        subst h
        refine ⟨setItem_other st auroraStorageKey
            streamVerseStorageKey _ hne2,
          congrArg getWatchLaterList (setItem_other st auroraStorageKey
            streamVerseStorageKey _ hne2)⟩
    | undefined => rw [hv] at h; simp at h
    | null => rw [hv] at h; simp at h
    | bool b => rw [hv] at h; simp at h
    | num q => rw [hv] at h; simp at h
    | str s => rw [hv] at h; simp at h
    | obj fields => rw [hv] at h; simp at h

/-- Witness for C9: on a fresh origin, a StreamVerse toggle writes its
own key and the Aurora cell is unchanged. -/
theorem store_variants_isolated_witness :
    (setItem demoStorage streamVerseStorageKey (JsValue.arr [svDemoItemJs]))
        auroraStorageKey = demoStorage auroraStorageKey :=
  (store_variants_isolated.2.1 demoStorage (JsValue.num 5) svDemoItemJs
    (setItem demoStorage streamVerseStorageKey (JsValue.arr [svDemoItemJs]))
    rfl).1

end StorageIsolation
